import Mathlib

/-!
Formal model of the bulk email verifier implemented in src/v.py.

The development shallowly embeds the program:

* Pure string processing (the regex syntax check, Python str.split, the
  country inferrer) is translated into executable Lean functions over
  List Char.  Character classes are the ASCII classes written literally in
  the regex of the source.
* The network is an explicit environment (structure Env): the outcome of a
  DNS query for A or MX records per domain, and the behaviour of the SMTP
  server listening on each mail exchanger host.  The outcomes mirror the
  dnspython exceptions the code mentions (NXDOMAIN, NoAnswer, NoNameservers,
  lifetime timeout) and the smtplib failure modes.
* Python exceptions are values of type PyErr; a function that may raise is
  embedded with an Except or outcome codomain.  A network call that can
  block forever (the code opens smtplib.SMTP without a timeout argument) is
  embedded with an explicit hangs outcome.
-/

/-! ## Character classes of the regex in is_valid_email

The source compiles the pattern

  "^[a-zA-Z0-9_.+-]+@[a-zA-Z0-9-]+\\.[a-zA-Z0-9-.]+$"

and accepts a string iff re.match succeeds, i.e. iff the whole string is in
the language  local+ at-sign mid+ dot tail+ . -/

/-- Characters allowed before the at-sign: the class [a-zA-Z0-9_.+-]. -/
def isLocalChar (c : Char) : Bool :=
  c.isAlphanum || c == '_' || c == '.' || c == '+' || c == '-'

/-- Characters of the first domain label: the class [a-zA-Z0-9-]. -/
def isMidChar (c : Char) : Bool :=
  c.isAlphanum || c == '-'

/-- Characters after the mandatory dot: the class [a-zA-Z0-9-.]. -/
def isTailChar (c : Char) : Bool :=
  c.isAlphanum || c == '-' || c == '.'

/-- The trailing class as claim C7 words it: dot or alphanumeric only. -/
def isClaimTailChar (c : Char) : Bool :=
  c.isAlphanum || c == '.'

/-- Matcher for the part after the at-sign: the language  pm+ dot pt+ ,
matched by splitting at the first dot (the middle class contains no dot, so
a backtracking engine splits there too). -/
def matchDomainPart (pm pt : Char → Bool) (dom : List Char) : Bool :=
  match dom.dropWhile (fun c => c != '.') with
  | [] => false
  | _ :: post =>
    !(dom.takeWhile (fun c => c != '.')).isEmpty &&
      (dom.takeWhile (fun c => c != '.')).all pm &&
      !post.isEmpty && post.all pt

/-- Deterministic matcher for the language  pl+ at-sign pm+ dot pt+ .
Because the at-sign is in none of the classes of the pattern and the dot is
not in the middle class, a backtracking regex engine and this first-split
matcher agree; the equivalence with the declarative reading is proved in
matchesPattern_iff below. -/
def matchesPattern (pl pm pt : Char → Bool) (cs : List Char) : Bool :=
  match cs.dropWhile (fun c => c != '@') with
  | [] => false
  | _ :: dom =>
    !(cs.takeWhile (fun c => c != '@')).isEmpty &&
      (cs.takeWhile (fun c => c != '@')).all pl &&
      matchDomainPart pm pt dom

/-- Declarative reading of the pattern: the string splits as
a ++ at-sign ++ b ++ dot ++ c with the three parts nonempty and drawn from
the three character classes. -/
def PatternSplit (pl pm pt : Char → Bool) (cs : List Char) : Prop :=
  ∃ a b c : List Char,
    cs = a ++ '@' :: (b ++ '.' :: c) ∧
    a ≠ [] ∧ a.all pl = true ∧
    b ≠ [] ∧ b.all pm = true ∧
    c ≠ [] ∧ c.all pt = true

/-- Model of anchoring a pattern between the caret and the dollar of the
re module without MULTILINE: the dollar matches at the end of the string or
just before a newline that ends the string, so the anchored pattern accepts
a string iff the pattern matches the whole string or the whole string minus
one trailing newline. -/
def pyDollarMatch (pat : List Char → Bool) (cs : List Char) : Bool :=
  pat cs || (cs.getLast? == some '\n' && pat cs.dropLast)

/-- Translation of is_valid_email from src/v.py: re.match of the compiled
anchored pattern against the email, with the dollar-before-trailing-newline
acceptance of Python, so an address followed by one newline is also
accepted. -/
def is_valid_email (email : String) : Bool :=
  pyDollarMatch (matchesPattern isLocalChar isMidChar isTailChar) email.toList


/-! ## Python str.split -/

/-- Model of the Python method split(sep) for a one-character separator,
keeping empty fields, exactly as str.split does:
pySplit sep "a.b" = ["a", "b"], pySplit sep "" = [""],
pySplit sep ".x." = ["", "x", ""]. -/
def pySplit (c : Char) : List Char → List (List Char)
  | [] => [[]]
  | a :: t =>
    if a = c then [] :: pySplit c t
    else
      match pySplit c t with
      | [] => [[a]]
      | h :: r => (a :: h) :: r

/-- Translation of get_domain from src/v.py, which evaluates
email.split(at-sign)[1]: the index access raises IndexError (embedded as
none) exactly when the split yields fewer than two fields, i.e. when the
email contains no at-sign. -/
def get_domain (email : String) : Option String :=
  ((pySplit '@' email.toList).get? 1).map List.asString


/-! ## Country inferrer -/

/-- Modelled from the spec: the static table of ISO 3166-1 alpha-2 country
codes that the external pycountry library supplies to
get_country_by_domain.  The library data is not part of the repository; per
the spec it is a static table from two-letter codes to country names (a
representative subset is embedded here).  As in ISO 3166-1, Germany is DE
and there is no UK entry (the United Kingdom is GB). -/
def pycountry_alpha2 : List (String × String) :=
  [("AT", "Austria"), ("AU", "Australia"), ("BE", "Belgium"),
   ("BR", "Brazil"), ("CA", "Canada"), ("CH", "Switzerland"),
   ("CN", "China"), ("DE", "Germany"), ("DK", "Denmark"),
   ("ES", "Spain"), ("FI", "Finland"), ("FR", "France"),
   ("GB", "United Kingdom"), ("GR", "Greece"), ("IE", "Ireland"),
   ("IN", "India"), ("IT", "Italy"), ("JP", "Japan"),
   ("MX", "Mexico"), ("NL", "Netherlands"), ("NO", "Norway"),
   ("PL", "Poland"), ("PT", "Portugal"), ("RU", "Russian Federation"),
   ("SE", "Sweden"), ("US", "United States")]

/-- Translation of get_country_by_domain from src/v.py: split the domain on
dots; when there are at least two fields and the last field (the field at
Python index -1; the split list is never empty so the getD default is never
used) is alphabetic of length two, uppercase it and look it up in the
country table, defaulting to "Unknown"; otherwise return "Unknown".
Character predicates are the ASCII ones, matching the ASCII country codes
of the table. -/
def get_country_by_domain (domain : String) : String :=
  if 1 < (pySplit '.' domain.toList).length ∧
      ((pySplit '.' domain.toList).getLast?.getD []).all Char.isAlpha = true ∧
      ((pySplit '.' domain.toList).getLast?.getD []).length = 2 then
    (pycountry_alpha2.lookup
      (List.asString (((pySplit '.' domain.toList).getLast?.getD []).map Char.toUpper))).getD
      "Unknown"
  else "Unknown"


/-- Modelled from the words of claim C6 (a claim-side reference point, not a
translation of the source): look at the last dot-separated label, including
the case of a single two-letter label with no dot, and when it is exactly
two alphabetic characters look its uppercasing up in the table. -/
def inferCountry_claim (domain : String) : String :=
  if ((pySplit '.' domain.toList).getLast?.getD []).all Char.isAlpha = true ∧
      ((pySplit '.' domain.toList).getLast?.getD []).length = 2 then
    (pycountry_alpha2.lookup
      (List.asString (((pySplit '.' domain.toList).getLast?.getD []).map Char.toUpper))).getD
      "Unknown"
  else "Unknown"


/-! ## The network environment

DNS queries and SMTP sessions are the only effects of the program.  They are
embedded as an explicit environment: a function from the queried domain to
the outcome of the resolver, and a function from the mail exchanger host to
the behaviour of the SMTP server there. -/

/-- Outcome of one dns.resolver.resolve call, mirroring dnspython:
either an answer carrying the records, or one of the exceptions the source
handles or lets escape: NXDOMAIN, NoAnswer, NoNameservers (SERVFAIL),
LifetimeTimeout. -/
inductive DnsOutcome (α : Type) where
  | answer (records : List α)
  | nxdomain
  | noAnswer
  | servfail
  | timeout
deriving DecidableEq

/-- Embedded Python exceptions that the pipeline can raise or catch. -/
inductive PyErr where
  | noAnswerErr
  | noNameservers
  | lifetimeTimeout
  | indexError
deriving DecidableEq

deriving instance DecidableEq for Except

/-- Behaviour of the SMTP server at one mail exchanger host:
unreachable (the connection attempt raises), unresponsive (the host never
answers, so a connect without a timeout blocks forever), or a live session
described by whether HELO and MAIL succeed, the RCPT response code per
recipient (none meaning the RCPT call raises), and whether QUIT succeeds. -/
inductive SmtpBehavior where
  | unreachable
  | unresponsive
  | session (heloOk mailOk : Bool) (rcptResp : String → Option Nat) (quitOk : Bool)

/-- The network seen by one run: DNS A records per domain, DNS MX records
(exchange host names) per domain, and SMTP behaviour per host.  Functions
are fixed for the run, so the two MX queries the source makes for one
address observe the same answer. -/
structure Env where
  dnsA : String → DnsOutcome Unit
  dnsMX : String → DnsOutcome String
  smtp : String → SmtpBehavior

/-- Translation of domain_exists from src/v.py: resolve A records and
return True, except that NXDOMAIN is caught and gives False.  Every other
resolver exception is not caught and escapes (embedded as Except.error). -/
def domain_exists (env : Env) (domain : String) : Except PyErr Bool :=
  match env.dnsA domain with
  | .answer _ => .ok true
  | .nxdomain => .ok false
  | .noAnswer => .error .noAnswerErr
  | .servfail => .error .noNameservers
  | .timeout => .error .lifetimeTimeout

/-- Translation of has_mx_records from src/v.py: resolve MX records and
return whether more than zero came back; NoAnswer and NXDOMAIN are caught
and give False; other resolver exceptions escape. -/
def has_mx_records (env : Env) (domain : String) : Except PyErr Bool :=
  match env.dnsMX domain with
  | .answer records => .ok (decide (records.length > 0))
  | .noAnswer => .ok false
  | .nxdomain => .ok false
  | .servfail => .error .noNameservers
  | .timeout => .error .lifetimeTimeout

/-- Outcome of constructing smtplib.SMTP(host, timeout): a connection, a
raised connection error, or a call that never returns.  The source passes
no timeout argument (smtplib then blocks indefinitely on an unresponsive
host); with a finite timeout the same situation raises instead. -/
inductive ConnectOutcome where
  | connected (heloOk mailOk : Bool) (rcptResp : String → Option Nat) (quitOk : Bool)
  | raisesConnect
  | hangs

/-- Model of the smtplib.SMTP constructor applied to a host, with the
optional timeout argument made explicit. -/
def smtpConnect (b : SmtpBehavior) (timeout : Option Nat) : ConnectOutcome :=
  match b with
  | .unreachable => .raisesConnect
  | .unresponsive =>
    match timeout with
    | none => .hangs
    | some _ => .raisesConnect
  | .session heloOk mailOk rcptResp quitOk => .connected heloOk mailOk rcptResp quitOk

/-- Result of running the probe: it returns a boolean, raises, or blocks
forever.  The bare except of the source catches every exception raised
inside the try block, but the domain extraction runs before the try, so an
IndexError from it escapes; and a hang is not an exception. -/
inductive ProbeOutcome where
  | returns (b : Bool)
  | raises (e : PyErr)
  | hangs
deriving DecidableEq

/-- Translation of smtp_verify from src/v.py: extract the domain of the
email (this call sits before the try block, so an address with no at-sign
raises IndexError out of smtp_verify), then inside the try resolve the MX
records, take the first record, open an SMTP session to it with no timeout
argument, run HELO, MAIL, RCPT and QUIT, and return whether the RCPT
response code is 250.  The bare except turns every error raised inside the
try (DNS failures, the IndexError on an empty record list, connection and
protocol errors) into False. -/
def smtp_verify (env : Env) (email : String) : ProbeOutcome :=
  match get_domain email with
  | none => .raises .indexError
  | some domain =>
    match env.dnsMX domain with
    | .answer [] => .returns false
    | .answer (mx :: _) =>
      match smtpConnect (env.smtp mx) none with
      | .raisesConnect => .returns false
      | .hangs => .hangs
      | .connected heloOk mailOk rcptResp quitOk =>
        if heloOk = false then .returns false
        else if mailOk = false then .returns false
        else
          match rcptResp email with
          | none => .returns false
          | some code =>
            if quitOk = false then .returns false
            else .returns (decide (code = 250))
    | .nxdomain => .returns false
    | .noAnswer => .returns false
    | .servfail => .returns false
    | .timeout => .returns false

/-! ## The verification pipeline -/

/-- The record the pipeline produces for one address, mirroring the tuple
(email, is_valid, status, country) of the source. -/
structure VerificationResult where
  address : String
  accepted : Bool
  status : String
  country : String
deriving DecidableEq

/-- Outcome of one call of verify_email: a result, a propagated Python
exception, or a call that never returns. -/
inductive RunOutcome where
  | result (r : VerificationResult)
  | raises (e : PyErr)
  | hangs
deriving DecidableEq

/-- Translation of verify_email from src/v.py: syntax check, domain
existence, MX presence, SMTP probe, strictly in this order with early
returns; the status strings are the literals of the source.  Exceptions
escaping domain_exists or has_mx_records propagate, and a hanging probe
makes the whole call hang. -/
def verify_email (env : Env) (email : String) : RunOutcome :=
  if is_valid_email email = false then
    .result ⟨email, false, "Invalid Email Syntax", "Unknown"⟩
  else
    match get_domain email with
    | none => .raises .indexError
    | some domain =>
      match domain_exists env domain with
      | .error e => .raises e
      | .ok false => .result ⟨email, false, "Domain Does Not Exist", "Unknown"⟩
      | .ok true =>
        match has_mx_records env domain with
        | .error e => .raises e
        | .ok false => .result ⟨email, false, "No MX Records", "Unknown"⟩
        | .ok true =>
          match smtp_verify env email with
          | .raises e => .raises e
          | .hangs => .hangs
          | .returns false =>
            .result ⟨email, false, "Email Not Verified", get_country_by_domain domain⟩
          | .returns true =>
            .result ⟨email, true, "Verified", get_country_by_domain domain⟩

/-- Outcome of the bulk run: the collected results, or the first propagated
exception in input order, or a hang. -/
inductive BulkOutcome where
  | results (rs : List VerificationResult)
  | raises (e : PyErr)
  | hangs
deriving DecidableEq

/-- Iterating the executor.map generator in input position order: the first
invocation outcome that is not a result surfaces when its position is
reached (an exception re-raises there, a hang blocks there). -/
def collectResults : List RunOutcome → BulkOutcome
  | [] => .results []
  | .result r :: rest =>
    match collectResults rest with
    | .results rs => .results (r :: rs)
    | .raises e => .raises e
    | .hangs => .hangs
  | .raises e :: _ => .raises e
  | .hangs :: _ => .hangs

/-- Translation of verify_bulk_emails from src/v.py:
list(executor.map(verify_email, emails)).  concurrent.futures executor.map
yields results in the order of the inputs regardless of completion order,
so its value semantics is the map of the pipeline over the input list,
collected in input order. -/
def verify_bulk_emails (env : Env) (emails : List String) : BulkOutcome :=
  collectResults (emails.map (verify_email env))

/-! ## Concrete environments used as test inputs -/

/-- Every lookup answers, the mail server accepts every recipient. -/
def envNice : Env :=
  ⟨fun _ => .answer [()], fun _ => .answer ["mx.example.com"],
   fun _ => .session true true (fun _ => some 250) true⟩

/-- The A lookup times out for every domain. -/
def envTimeoutA : Env :=
  ⟨fun _ => .timeout, fun _ => .noAnswer, fun _ => .unreachable⟩

/-- Every domain is NXDOMAIN; the MX lookup would time out if it were ever
made, and the SMTP server would hang if it were ever contacted. -/
def envNx : Env :=
  ⟨fun _ => .nxdomain, fun _ => .timeout, fun _ => .unresponsive⟩

/-- Domains resolve but have no MX records; the SMTP server would hang if
it were ever contacted. -/
def envNoMx : Env :=
  ⟨fun _ => .answer [()], fun _ => .noAnswer, fun _ => .unresponsive⟩

/-- The session completes and the server answers every RCPT with 550:
an explicit rejection of the recipient. -/
def envReject : Env :=
  ⟨fun _ => .answer [()], fun _ => .answer ["mx.example.com"],
   fun _ => .session true true (fun _ => some 550) true⟩

/-- The connection attempt to the mail exchanger raises: the probe cannot
complete. -/
def envRefuse : Env :=
  ⟨fun _ => .answer [()], fun _ => .answer ["mx.example.com"],
   fun _ => .unreachable⟩

/-- The mail exchanger never responds. -/
def envHang : Env :=
  ⟨fun _ => .answer [()], fun _ => .answer ["mx.example.com"],
   fun _ => .unresponsive⟩

/-! ## Helper lemmas about pySplit -/

theorem pySplit_ne_nil (c : Char) (l : List Char) : pySplit c l ≠ [] := by
  induction l with
  | nil => simp [pySplit]
  | cons a t ih =>
    by_cases hac : a = c
    · simp [pySplit, hac]
    · simp only [pySplit, if_neg hac]
      cases hps : pySplit c t with
      | nil => exact absurd hps ih
      | cons h r => simp

theorem pySplit_no_sep (c : Char) (l : List Char) (h : c ∉ l) :
    pySplit c l = [l] := by
  induction l with
  | nil => rfl
  | cons a t ih =>
    have hac : ¬ a = c := fun e => h (by rw [e]; exact List.mem_cons_self c t)
    have hct : c ∉ t := fun hm => h (List.mem_cons_of_mem a hm)
    simp [pySplit, hac, ih hct]

theorem pySplit_length_ge_two (c : Char) (l : List Char) (h : c ∈ l) :
    2 ≤ (pySplit c l).length := by
  induction l with
  | nil => cases h
  | cons a t ih =>
    by_cases hac : a = c
    · simp only [pySplit, if_pos hac]
      cases hps : pySplit c t with
      | nil => exact absurd hps (pySplit_ne_nil c t)
      | cons x xs => simp
    · have hmem : c ∈ t := by
        rcases List.mem_cons.mp h with h1 | h2
        · exact absurd h1.symm hac
        · exact h2
      have h2 := ih hmem
      simp only [pySplit, if_neg hac]
      cases hps : pySplit c t with
      | nil => exact absurd hps (pySplit_ne_nil c t)
      | cons x xs => rw [hps] at h2; simpa using h2

theorem pySplit_append_sep (c : Char) (p last : List Char) (h : c ∉ last) :
    (pySplit c (p ++ c :: last)).getLast? = some last ∧
    2 ≤ (pySplit c (p ++ c :: last)).length := by
  induction p with
  | nil =>
    have he : pySplit c (c :: last) = [] :: pySplit c last := by simp [pySplit]
    rw [List.nil_append, he, pySplit_no_sep c last h]
    exact ⟨by rw [List.getLast?_cons_cons]; rfl, by simp⟩
  | cons a t ih =>
    obtain ⟨ih1, ih2⟩ := ih
    by_cases hac : a = c
    · simp only [List.cons_append, pySplit, if_pos hac]
      cases hL : pySplit c (t ++ c :: last) with
      | nil => exact absurd hL (pySplit_ne_nil c _)
      | cons x xs =>
        rw [hL] at ih1 ih2
        constructor
        · cases xs with
          | nil => simp at ih2
          | cons y ys =>
            rw [List.getLast?_cons_cons]
            rw [List.getLast?_cons_cons] at ih1 ⊢
            exact ih1
        · simp
    · simp only [List.cons_append, pySplit, if_neg hac]
      cases hL : pySplit c (t ++ c :: last) with
      | nil => exact absurd hL (pySplit_ne_nil c _)
      | cons x xs =>
        rw [hL] at ih1 ih2
        constructor
        · cases xs with
          | nil => simp at ih2
          | cons y ys =>
            rw [List.getLast?_cons_cons]
            rw [List.getLast?_cons_cons] at ih1
            exact ih1
        · simpa using ih2

/-! ## Helper lemmas about the pattern matcher -/

theorem all_bne_of_all (p : Char → Bool) (y : Char) (hy : p y = false)
    (l : List Char) (hl : l.all p = true) :
    l.all (fun c => c != y) = true := by
  rw [List.all_eq_true] at hl ⊢
  intro x hx
  have hpx := hl x hx
  rw [bne_iff_ne]
  intro hxy
  rw [hxy, hy] at hpx
  cases hpx

theorem dropWhile_head_false (p : Char → Bool) (l : List Char) (a : Char)
    (t : List Char) (h : l.dropWhile p = a :: t) : p a = false := by
  induction l with
  | nil => cases h
  | cons x xs ih =>
    by_cases hx : p x = true
    · rw [List.dropWhile_cons_of_pos hx] at h
      exact ih h
    · rw [List.dropWhile_cons_of_neg hx] at h
      injection h with h1 h2
      rw [← h1]
      exact Bool.eq_false_iff.mpr hx

theorem takeWhile_middle (p : Char → Bool) (a : List Char) (y : Char)
    (t : List Char) (ha : a.all p = true) (hy : p y = false) :
    (a ++ y :: t).takeWhile p = a ∧ (a ++ y :: t).dropWhile p = y :: t := by
  induction a with
  | nil =>
    constructor
    · exact List.takeWhile_cons_of_neg (by simp [hy])
    · exact List.dropWhile_cons_of_neg (by simp [hy])
  | cons x xs ih =>
    rw [List.all_cons, Bool.and_eq_true] at ha
    obtain ⟨ih1, ih2⟩ := ih ha.2
    constructor
    · rw [List.cons_append, List.takeWhile_cons_of_pos ha.1, ih1]
    · rw [List.cons_append, List.dropWhile_cons_of_pos ha.1, ih2]

theorem matchDomainPart_of_split (pm pt : Char → Bool) (b c : List Char)
    (hb1 : b ≠ []) (hb2 : b.all pm = true) (hc1 : c ≠ []) (hc2 : c.all pt = true)
    (hpm : pm '.' = false) :
    matchDomainPart pm pt (b ++ '.' :: c) = true := by
  have htb := takeWhile_middle (fun c => c != '.') b '.' c
    (all_bne_of_all pm '.' hpm b hb2) (by simp)
  unfold matchDomainPart
  split
  · rename_i heq
    rw [htb.2] at heq
    cases heq
  · rename_i x post heq
    rw [htb.2] at heq
    injection heq with he1 he2
    subst he2
    rw [htb.1]
    have hbe : b.isEmpty = false := by
      cases b with
      | nil => exact absurd rfl hb1
      | cons u v => rfl
    have hce : c.isEmpty = false := by
      cases c with
      | nil => exact absurd rfl hc1
      | cons u v => rfl
    simp [hbe, hce, hb2, hc2]

theorem matchDomainPart_split (pm pt : Char → Bool) (dom : List Char)
    (h : matchDomainPart pm pt dom = true) :
    ∃ b c, dom = b ++ '.' :: c ∧ b ≠ [] ∧ b.all pm = true ∧
      c ≠ [] ∧ c.all pt = true := by
  unfold matchDomainPart at h
  split at h
  · cases h
  · rename_i x post heq
    simp only [Bool.and_eq_true] at h
    obtain ⟨⟨⟨hbe, hb2⟩, hce⟩, hc2⟩ := h
    have hx : x = '.' := by
      have hh := dropWhile_head_false (fun c => c != '.') dom x post heq
      simpa using hh
    refine ⟨dom.takeWhile (fun c => c != '.'), post, ?_, ?_, hb2, ?_, hc2⟩
    · conv_lhs => rw [← List.takeWhile_append_dropWhile (fun c => c != '.') dom]
      rw [heq, hx]
    · intro he; rw [he] at hbe; simp at hbe
    · intro he; rw [he] at hce; simp at hce

theorem matchesPattern_iff (pl pm pt : Char → Bool) (cs : List Char)
    (hpl : pl '@' = false) (hpm : pm '.' = false) :
    matchesPattern pl pm pt cs = true ↔ PatternSplit pl pm pt cs := by
  constructor
  · intro h
    unfold matchesPattern at h
    split at h
    · cases h
    · rename_i a dom heq
      simp only [Bool.and_eq_true] at h
      obtain ⟨⟨hae, ha2⟩, hdom⟩ := h
      have ha : a = '@' := by
        have hh := dropWhile_head_false (fun c => c != '@') cs a dom heq
        simpa using hh
      obtain ⟨b, c, hd, hb1, hb2, hc1, hc2⟩ := matchDomainPart_split pm pt dom hdom
      refine ⟨cs.takeWhile (fun c => c != '@'), b, c, ?_, ?_, ha2, hb1, hb2, hc1, hc2⟩
      · conv_lhs => rw [← List.takeWhile_append_dropWhile (fun c => c != '@') cs]
        rw [heq, ha, hd]
      · intro he; rw [he] at hae; simp at hae
  · rintro ⟨a, b, c, rfl, ha1, ha2, hb1, hb2, hc1, hc2⟩
    have hta := takeWhile_middle (fun c => c != '@') a '@' (b ++ '.' :: c)
      (all_bne_of_all pl '@' hpl a ha2) (by simp)
    unfold matchesPattern
    split
    · rename_i heq
      rw [hta.2] at heq
      cases heq
    · rename_i x dom heq
      rw [hta.2] at heq
      injection heq with he1 he2
      subst he2
      rw [hta.1]
      have hae : a.isEmpty = false := by
        cases a with
        | nil => exact absurd rfl ha1
        | cons u v => rfl
      rw [matchDomainPart_of_split pm pt b c hb1 hb2 hc1 hc2 hpm]
      simp [hae, ha2]

theorem valid_email_get_domain (email : String)
    (h : is_valid_email email = true) :
    ∃ d, get_domain email = some d := by
  have hat : '@' ∈ email.toList := by
    unfold is_valid_email pyDollarMatch at h
    rw [Bool.or_eq_true, Bool.and_eq_true] at h
    rcases h with h | ⟨h1, h2⟩
    · obtain ⟨a, b, c, hcs, _, _, _, _, _, _⟩ :=
        (matchesPattern_iff isLocalChar isMidChar isTailChar email.toList
          (by decide) (by decide)).mp h
      rw [hcs]; exact List.mem_append_right _ (List.mem_cons_self _ _)
    · obtain ⟨a, b, c, hcs, _, _, _, _, _, _⟩ :=
        (matchesPattern_iff isLocalChar isMidChar isTailChar
          email.toList.dropLast (by decide) (by decide)).mp h2
      refine List.mem_of_mem_dropLast ?_
      rw [hcs]; exact List.mem_append_right _ (List.mem_cons_self _ _)
  have hlen := pySplit_length_ge_two '@' email.toList hat
  unfold get_domain
  cases hsp : pySplit '@' email.toList with
  | nil => exact absurd hsp (pySplit_ne_nil _ _)
  | cons x xs =>
    cases xs with
    | nil => rw [hsp] at hlen; simp at hlen
    | cons y ys => exact ⟨List.asString y, by simp⟩

/-! ## Helper lemmas about the pipeline -/

theorem collectResults_spec (outs : List RunOutcome)
    (rs : List VerificationResult) (h : collectResults outs = .results rs) :
    rs.length = outs.length ∧
    ∀ i (hi : i < outs.length) (hr : i < rs.length),
      outs[i] = .result rs[i] := by
  induction outs generalizing rs with
  | nil =>
    unfold collectResults at h
    injection h with h1
    subst h1
    exact ⟨rfl, fun i hi => absurd hi (by simp)⟩
  | cons o t ih =>
    cases o with
    | result r =>
      unfold collectResults at h
      cases hc : collectResults t with
      | results rs2 =>
        rw [hc] at h
        injection h with h1
        obtain ⟨ih1, ih2⟩ := ih rs2 hc
        subst h1
        refine ⟨by simp [ih1], ?_⟩
        intro i hi hr
        cases i with
        | zero => rfl
        | succ n =>
          have hn := ih2 n (by simpa using hi) (by simpa using hr)
          simpa using hn
      | raises e => rw [hc] at h; cases h
      | hangs => rw [hc] at h; cases h
    | raises e => unfold collectResults at h; cases h
    | hangs => unfold collectResults at h; cases h

theorem smtp_verify_returns (env : Env) (email domain : String)
    (hgd : get_domain email = some domain)
    (hS : ∀ h, env.smtp h ≠ .unresponsive) :
    ∃ b, smtp_verify env email = .returns b := by
  cases hmx : env.dnsMX domain with
    | answer records =>
      cases records with
      | nil => exact ⟨false, by simp [smtp_verify, hgd, hmx]⟩
      | cons mx rest =>
        cases hsb : env.smtp mx with
        | unreachable =>
          exact ⟨false, by simp [smtp_verify, hgd, hmx, hsb, smtpConnect]⟩
        | unresponsive => exact absurd hsb (hS mx)
        | session heloOk mailOk rcptResp quitOk =>
          cases heloOk with
          | false =>
            exact ⟨false, by simp [smtp_verify, hgd, hmx, hsb, smtpConnect]⟩
          | true =>
            cases mailOk with
            | false =>
              exact ⟨false, by simp [smtp_verify, hgd, hmx, hsb, smtpConnect]⟩
            | true =>
              cases hrc : rcptResp email with
              | none =>
                exact ⟨false, by simp [smtp_verify, hgd, hmx, hsb, smtpConnect, hrc]⟩
              | some code =>
                cases quitOk with
                | false =>
                  exact ⟨false, by simp [smtp_verify, hgd, hmx, hsb, smtpConnect, hrc]⟩
                | true =>
                  exact ⟨decide (code = 250),
                    by simp [smtp_verify, hgd, hmx, hsb, smtpConnect, hrc]⟩
    | nxdomain => exact ⟨false, by simp [smtp_verify, hgd, hmx]⟩
    | noAnswer => exact ⟨false, by simp [smtp_verify, hgd, hmx]⟩
    | servfail => exact ⟨false, by simp [smtp_verify, hgd, hmx]⟩
    | timeout => exact ⟨false, by simp [smtp_verify, hgd, hmx]⟩

/-! ## Claim theorems -/

/-- C1 counterexample: the claim says a single invocation of verify_email
never raises and maps resolver errors other than a definitive not-found to
a Status.  On the code this fails: when the A lookup times out, the
uncaught resolver exception propagates out of verify_email instead of
becoming a result. -/
theorem verify_email_raises_on_timeout :
    verify_email envTimeoutA "user@example.com" = .raises .lifetimeTimeout := by
  decide

/-- C1 amended: verify_email returns exactly one VerificationResult
whenever every resolver lookup completes definitively (A lookup: answer or
NXDOMAIN; MX lookup: answer, empty answer or NXDOMAIN) and no mail
exchanger hangs the probe; resolver errors other than these (timeout,
SERVFAIL, missing A answer) propagate as exceptions to the caller. -/
theorem verify_email_total_when_definitive (env : Env) (email : String)
    (hA : ∀ d, env.dnsA d = .nxdomain ∨ ∃ rs, env.dnsA d = .answer rs)
    (hMX : ∀ d, env.dnsMX d = .nxdomain ∨ env.dnsMX d = .noAnswer ∨
      ∃ rs, env.dnsMX d = .answer rs)
    (hS : ∀ h, env.smtp h ≠ .unresponsive) :
    ∃ r, verify_email env email = .result r := by
  by_cases hv : is_valid_email email = true
  case neg =>
    have hv2 : is_valid_email email = false := by
      cases hb : is_valid_email email
      · rfl
      · exact absurd hb hv
    exact ⟨⟨email, false, "Invalid Email Syntax", "Unknown"⟩,
      by simp [verify_email, hv2]⟩
  case pos =>
    obtain ⟨d, hd⟩ := valid_email_get_domain email hv
    rcases hA d with hA1 | ⟨rs, hA2⟩
    · exact ⟨⟨email, false, "Domain Does Not Exist", "Unknown"⟩,
        by simp [verify_email, hv, hd, domain_exists, hA1]⟩
    · have hde : domain_exists env d = .ok true := by simp [domain_exists, hA2]
      rcases hMX d with hM1 | hM2 | ⟨rs2, hM3⟩
      · have hmx0 : has_mx_records env d = .ok false := by
          simp [has_mx_records, hM1]
        exact ⟨⟨email, false, "No MX Records", "Unknown"⟩,
          by simp [verify_email, hv, hd, hde, hmx0]⟩
      · have hmx0 : has_mx_records env d = .ok false := by
          simp [has_mx_records, hM2]
        exact ⟨⟨email, false, "No MX Records", "Unknown"⟩,
          by simp [verify_email, hv, hd, hde, hmx0]⟩
      · cases rs2 with
        | nil =>
          have hmx0 : has_mx_records env d = .ok false := by
            simp [has_mx_records, hM3]
          exact ⟨⟨email, false, "No MX Records", "Unknown"⟩,
            by simp [verify_email, hv, hd, hde, hmx0]⟩
        | cons mx rest =>
          have hmx1 : has_mx_records env d = .ok true := by
            simp [has_mx_records, hM3]
          obtain ⟨b, hb⟩ := smtp_verify_returns env email d hd hS
          cases b with
          | false =>
            exact ⟨⟨email, false, "Email Not Verified", get_country_by_domain d⟩,
              by simp [verify_email, hv, hd, hde, hmx1, hb]⟩
          | true =>
            exact ⟨⟨email, true, "Verified", get_country_by_domain d⟩,
              by simp [verify_email, hv, hd, hde, hmx1, hb]⟩

/-- C1 witness: the amended theorem applied to a fully answering
environment and a concrete address. -/
theorem verify_email_total_when_definitive_witness :
    ∃ r, verify_email envNice "user@example.com" = .result r :=
  verify_email_total_when_definitive envNice "user@example.com"
    (fun _ => Or.inr ⟨[()], rfl⟩)
    (fun _ => Or.inr (Or.inr ⟨["mx.example.com"], rfl⟩))
    (fun _ hc => SmtpBehavior.noConfusion hc)

/-- C2 counterexample: the claim says verify_bulk_emails always returns a
sequence of results as long as its input.  On the code this fails: when
one address makes its pipeline raise (here a resolver timeout), iterating
the executor map re-raises, so the bulk call propagates the exception and
returns no sequence at all. -/
theorem verify_bulk_emails_raises_counterexample :
    verify_bulk_emails envTimeoutA ["user@example.com"] =
      .raises .lifetimeTimeout := by
  decide

/-- C2 amended: whenever verify_bulk_emails does return a sequence of
results (it propagates an exception or blocks if any single invocation
does), that sequence is exactly as long as the input and its i-th element
is the pipeline result of the i-th input address, regardless of concurrent
completion order; the empty input always yields the empty sequence. -/
theorem verify_bulk_emails_order (env : Env) :
    verify_bulk_emails env [] = .results [] ∧
    ∀ (emails : List String) (rs : List VerificationResult),
      verify_bulk_emails env emails = .results rs →
      rs.length = emails.length ∧
      ∀ i (hi : i < emails.length) (hr : i < rs.length),
        verify_email env emails[i] = .result rs[i] := by
  refine ⟨rfl, ?_⟩
  intro emails rs h
  obtain ⟨h1, h2⟩ := collectResults_spec (emails.map (verify_email env)) rs h
  refine ⟨by simpa using h1, ?_⟩
  intro i hi hr
  have hlen2 : i < (emails.map (verify_email env)).length := by simpa using hi
  have h3 := h2 i hlen2 hr
  rw [List.getElem_map] at h3
  exact h3

/-- C2 witness: the amended theorem applied to a singleton batch in a
rejecting environment. -/
theorem verify_bulk_emails_order_witness :
    ([(⟨"user@example.com", false, "Email Not Verified", "Unknown"⟩ :
        VerificationResult)]).length =
      (["user@example.com"] : List String).length :=
  ((verify_bulk_emails_order envReject).2 ["user@example.com"]
    [⟨"user@example.com", false, "Email Not Verified", "Unknown"⟩]
    (by decide)).1

/-- C3: the pipeline short-circuits in the order syntax check, domain
existence, MX presence, mailbox probe.  A syntax failure yields the
invalid-syntax status with country Unknown for every environment, so no
network check runs; an NXDOMAIN domain yields the domain-not-found status
with country Unknown for every environment, including environments whose
MX lookup would raise, so the MX check is never reached; a definitive
no-MX answer yields the no-MX status with country Unknown for every
environment, including environments whose SMTP server would hang, so the
prober is never invoked; and every produced result has accepted = true
exactly when its status is the Verified string. -/
theorem pipeline_short_circuit (env : Env) (email d : String) :
    (is_valid_email email = false →
      verify_email env email =
        .result ⟨email, false, "Invalid Email Syntax", "Unknown"⟩) ∧
    (is_valid_email email = true → get_domain email = some d →
      env.dnsA d = .nxdomain →
      verify_email env email =
        .result ⟨email, false, "Domain Does Not Exist", "Unknown"⟩) ∧
    (is_valid_email email = true → get_domain email = some d →
      domain_exists env d = .ok true → has_mx_records env d = .ok false →
      verify_email env email =
        .result ⟨email, false, "No MX Records", "Unknown"⟩) ∧
    (∀ r, verify_email env email = .result r →
      (r.accepted = true ↔ r.status = "Verified")) := by
  refine ⟨?_, ?_, ?_, ?_⟩
  · intro h
    simp [verify_email, h]
  · intro hv hd hA
    simp [verify_email, hv, hd, domain_exists, hA]
  · intro hv hd hde hmx
    simp [verify_email, hv, hd, hde, hmx]
  · intro r h
    unfold verify_email at h
    split at h
    · injection h with h1; subst h1; simp
    · split at h
      · simp at h
      · split at h
        · simp at h
        · injection h with h1; subst h1; simp
        · split at h
          · simp at h
          · injection h with h1; subst h1; simp
          · split at h
            · simp at h
            · simp at h
            · injection h with h1; subst h1; simp
            · injection h with h1; subst h1; simp

/-- C3 witness: the three short-circuit branches at concrete inputs, in
environments whose later stages would fail loudly if they were reached. -/
theorem pipeline_short_circuit_witness :
    verify_email envNx "not-an-email" =
      .result ⟨"not-an-email", false, "Invalid Email Syntax", "Unknown"⟩ ∧
    verify_email envNx "user@example.com" =
      .result ⟨"user@example.com", false, "Domain Does Not Exist", "Unknown"⟩ ∧
    verify_email envNoMx "user@example.com" =
      .result ⟨"user@example.com", false, "No MX Records", "Unknown"⟩ :=
  ⟨(pipeline_short_circuit envNx "not-an-email" "x").1 (by decide),
   (pipeline_short_circuit envNx "user@example.com" "example.com").2.1
     (by decide) (by decide) rfl,
   (pipeline_short_circuit envNoMx "user@example.com" "example.com").2.2.1
     (by decide) (by decide) (by decide) (by decide)⟩

/-- C4 counterexample: the claim says domain_exists returns a boolean for
every resolver outcome, true for everything except NXDOMAIN.  On the code
this fails: a timed-out A lookup makes domain_exists propagate the
resolver exception instead of returning true. -/
theorem domain_exists_not_total_counterexample :
    domain_exists envTimeoutA "example.com" = .error .lifetimeTimeout ∧
    domain_exists envTimeoutA "example.com" ≠ .ok true := by
  decide

/-- C4 amended: domain_exists returns false exactly when the resolver
reports NXDOMAIN, returns true exactly when the lookup returns an answer,
and propagates the resolver error for every other outcome (no answer,
SERVFAIL, timeout). -/
theorem domain_exists_characterization (env : Env) (d : String) :
    (domain_exists env d = .ok false ↔ env.dnsA d = .nxdomain) ∧
    (domain_exists env d = .ok true ↔ ∃ rs, env.dnsA d = .answer rs) ∧
    (env.dnsA d = .noAnswer → domain_exists env d = .error .noAnswerErr) ∧
    (env.dnsA d = .servfail → domain_exists env d = .error .noNameservers) ∧
    (env.dnsA d = .timeout → domain_exists env d = .error .lifetimeTimeout) := by
  refine ⟨?_, ?_, ?_, ?_, ?_⟩ <;> cases hA : env.dnsA d <;>
    simp [domain_exists, hA]

/-- C4 witness: the characterization applied to an answering environment
and to a timing-out environment at a concrete domain. -/
theorem domain_exists_characterization_witness :
    domain_exists envNice "example.org" = .ok true ∧
    domain_exists envTimeoutA "example.org" = .error .lifetimeTimeout :=
  ⟨(domain_exists_characterization envNice "example.org").2.1.mpr ⟨[()], rfl⟩,
   (domain_exists_characterization envTimeoutA "example.org").2.2.2.2 rfl⟩

/-- C5 counterexample: the claim says the pipeline distinguishes, at least
internally, an explicit RCPT rejection from a probe that could not
complete, as two distinct Status values.  On the code this fails: an
explicit 550 rejection and a refused connection produce results with the
identical status string, so no distinction exists anywhere in the
pipeline. -/
theorem probe_failure_statuses_equal_counterexample :
    verify_email envReject "user@example.com" =
      .result ⟨"user@example.com", false, "Email Not Verified", "Unknown"⟩ ∧
    verify_email envRefuse "user@example.com" =
      .result ⟨"user@example.com", false, "Email Not Verified", "Unknown"⟩ := by
  exact ⟨by decide, by decide⟩

/-- C5 amended: when the mailbox probe does not succeed, whether because
the server explicitly rejected the recipient or because the probe could
not complete, the pipeline maps both to the single status string of the
source, with accepted false and country inferred from the domain. -/
theorem probe_failure_single_status (env : Env) (email d : String)
    (hv : is_valid_email email = true) (hd : get_domain email = some d)
    (hde : domain_exists env d = .ok true)
    (hmx : has_mx_records env d = .ok true)
    (hp : smtp_verify env email = .returns false) :
    verify_email env email =
      .result ⟨email, false, "Email Not Verified", get_country_by_domain d⟩ := by
  simp [verify_email, hv, hd, hde, hmx, hp]

/-- C5 witness: the amended theorem applied to a rejecting environment and
an address whose domain has an inferable country. -/
theorem probe_failure_single_status_witness :
    verify_email envReject "user@mail.de" =
      .result ⟨"user@mail.de", false, "Email Not Verified",
        get_country_by_domain "mail.de"⟩ :=
  probe_failure_single_status envReject "user@mail.de" "mail.de"
    (by decide) (by decide) (by decide) (by decide) (by decide)

/-- C6 counterexample: the claim says the lookup also happens when the
domain is a single two-letter label with no dot.  On the code this fails:
the source requires more than one dot-separated field, so the domain
consisting only of the label de yields Unknown although the table maps DE
to Germany, as the claim-worded inferrer shows. -/
theorem infer_country_single_label_counterexample :
    inferCountry_claim "de" = "Germany" ∧
    get_country_by_domain "de" = "Unknown" := by
  exact ⟨by decide, by decide⟩

/-- C6 amended: the country inferrer splits the domain on dots and,
whenever the domain has at least two fields (at least one dot) and the last
field is exactly two alphabetic characters, uppercases it and looks it up
in the static table, defaulting to Unknown; a domain without a dot, or
whose last field is not a two-letter alphabetic code, yields Unknown; and
the two concrete examples of the claim hold. -/
theorem get_country_by_domain_cases :
    (∀ d : String, '.' ∉ d.toList → get_country_by_domain d = "Unknown") ∧
    (∀ p last : List Char, '.' ∉ last → last.all Char.isAlpha = true →
      last.length = 2 →
      get_country_by_domain (List.asString (p ++ '.' :: last)) =
        ((pycountry_alpha2.lookup
          (List.asString (last.map Char.toUpper))).getD "Unknown")) ∧
    (∀ p last : List Char, '.' ∉ last →
      ¬ (last.all Char.isAlpha = true ∧ last.length = 2) →
      get_country_by_domain (List.asString (p ++ '.' :: last)) = "Unknown") ∧
    get_country_by_domain "example.de" = "Germany" ∧
    get_country_by_domain "example.com" = "Unknown" := by
  refine ⟨?_, ?_, ?_, by decide, by decide⟩
  · intro d hd
    unfold get_country_by_domain
    rw [pySplit_no_sep '.' d.toList hd]
    rw [if_neg]
    intro hc
    exact absurd hc.1 (by simp)
  · intro p last h1 h2 h3
    obtain ⟨hl, hlen⟩ := pySplit_append_sep '.' p last h1
    have htl : (List.asString (p ++ '.' :: last)).toList = p ++ '.' :: last := rfl
    unfold get_country_by_domain
    rw [htl, hl]
    simp only [Option.getD_some]
    rw [if_pos ⟨hlen, h2, h3⟩]
  · intro p last h1 h2
    obtain ⟨hl, hlen⟩ := pySplit_append_sep '.' p last h1
    have htl : (List.asString (p ++ '.' :: last)).toList = p ++ '.' :: last := rfl
    unfold get_country_by_domain
    rw [htl, hl]
    simp only [Option.getD_some]
    rw [if_neg]
    intro hc
    exact h2 ⟨hc.2.1, hc.2.2⟩

/-- C6 witness: the amended lookup branch applied to a concrete domain
with a German top-level label. -/
theorem get_country_by_domain_cases_witness :
    get_country_by_domain
        (List.asString (['m', 'a', 'i', 'l'] ++ '.' :: ['d', 'e'])) =
      ((pycountry_alpha2.lookup
        (List.asString (['d', 'e'].map Char.toUpper))).getD "Unknown") :=
  get_country_by_domain_cases.2.1 ['m', 'a', 'i', 'l'] ['d', 'e']
    (by decide) (by decide) (by decide)

/-- C7 counterexample: the claim describes acceptance as an exact match of
the pattern whose trailing part is one or more dot-or-alphanumeric
characters.  On the code this fails twice: the trailing class of the source
also contains the hyphen, so user@a.- is accepted although it does not
split per the pattern the claim words; and the dollar of re.match also
accepts one trailing newline, so an address followed by a newline is
accepted although no split of it matches the pattern with either trailing
class. -/
theorem syntax_claim_pattern_counterexample :
    is_valid_email "user@a.-" = true ∧
    ¬ PatternSplit isLocalChar isMidChar isClaimTailChar
      ("user@a.-".toList) ∧
    is_valid_email "user@example.com\n" = true ∧
    ¬ PatternSplit isLocalChar isMidChar isClaimTailChar
      ("user@example.com\n".toList) ∧
    ¬ PatternSplit isLocalChar isMidChar isTailChar
      ("user@example.com\n".toList) := by
  refine ⟨by decide, ?_, by decide, ?_, ?_⟩
  · intro hp
    have hm := (matchesPattern_iff isLocalChar isMidChar isClaimTailChar
      ("user@a.-".toList) (by decide) (by decide)).mpr hp
    exact absurd hm (by decide)
  · intro hp
    have hm := (matchesPattern_iff isLocalChar isMidChar isClaimTailChar
      ("user@example.com\n".toList) (by decide) (by decide)).mpr hp
    exact absurd hm (by decide)
  · intro hp
    have hm := (matchesPattern_iff isLocalChar isMidChar isTailChar
      ("user@example.com\n".toList) (by decide) (by decide)).mpr hp
    exact absurd hm (by decide)

/-- C7 amended: the syntax checker accepts a string iff the string, or the
string with one trailing newline removed (the dollar anchor of re.match
also matches just before a newline that ends the string), splits as one or
more characters from the local class, an at-sign, one or more characters
from the hyphen-or-alphanumeric middle class, a dot, and one or more
trailing characters that are a dot, a hyphen or alphanumeric; and the
three concrete examples of the claim hold. -/
theorem is_valid_email_iff_pattern (s : String) :
    (is_valid_email s = true ↔
      (PatternSplit isLocalChar isMidChar isTailChar s.toList ∨
        (s.toList.getLast? = some '\n' ∧
          PatternSplit isLocalChar isMidChar isTailChar s.toList.dropLast))) ∧
    is_valid_email "user@example.com" = true ∧
    is_valid_email "not-an-email" = false ∧
    is_valid_email "user@@example.com" = false := by
  refine ⟨?_, by decide, by decide, by decide⟩
  unfold is_valid_email pyDollarMatch
  rw [Bool.or_eq_true, Bool.and_eq_true]
  constructor
  · rintro (h | ⟨h1, h2⟩)
    · exact Or.inl ((matchesPattern_iff isLocalChar isMidChar isTailChar
        s.toList (by decide) (by decide)).mp h)
    · refine Or.inr ⟨by simpa using h1,
        (matchesPattern_iff isLocalChar isMidChar isTailChar
          s.toList.dropLast (by decide) (by decide)).mp h2⟩
  · rintro (h | ⟨h1, h2⟩)
    · exact Or.inl ((matchesPattern_iff isLocalChar isMidChar isTailChar
        s.toList (by decide) (by decide)).mpr h)
    · exact Or.inr ⟨by rw [beq_iff_eq]; exact h1,
        (matchesPattern_iff isLocalChar isMidChar isTailChar
          s.toList.dropLast (by decide) (by decide)).mpr h2⟩

/-- C7 witness: the equivalence applied to a concrete accepted address. -/
theorem is_valid_email_iff_pattern_witness :
    PatternSplit isLocalChar isMidChar isTailChar
        ("user@example.com".toList) ∨
      ("user@example.com".toList.getLast? = some '\n' ∧
        PatternSplit isLocalChar isMidChar isTailChar
          ("user@example.com".toList.dropLast)) :=
  (is_valid_email_iff_pattern "user@example.com").1.mp (by decide)

/-- C8 counterexample: the claim says a bounded timeout on every network
call makes the pipeline finish with a probe-failed result when the mail
exchanger never responds.  On the code this fails: the source passes no
timeout to smtplib.SMTP, so with an unresponsive exchanger the pipeline
invocation hangs instead of completing with any result. -/
theorem probe_unresponsive_hangs_counterexample :
    verify_email envHang "user@example.com" = .hangs := by
  decide

/-- C8 amended: the prober applies no timeout to its SMTP connection (the
constructor is called with no timeout argument); whenever the first MX
host of a resolved domain never responds, the whole pipeline invocation
for that address hangs rather than completing within any bound. -/
theorem pipeline_hangs_on_unresponsive_mx (env : Env) (email d mx : String)
    (rest : List String) (hv : is_valid_email email = true)
    (hd : get_domain email = some d)
    (hde : domain_exists env d = .ok true)
    (hMX : env.dnsMX d = .answer (mx :: rest))
    (hs : env.smtp mx = .unresponsive) :
    verify_email env email = .hangs := by
  have hmx : has_mx_records env d = .ok true := by
    simp [has_mx_records, hMX]
  have hp : smtp_verify env email = .hangs := by
    simp [smtp_verify, hd, hMX, hs, smtpConnect]
  simp [verify_email, hv, hd, hde, hmx, hp]

/-- C8 witness: the amended theorem applied to a concrete address in the
hanging environment. -/
theorem pipeline_hangs_on_unresponsive_mx_witness :
    verify_email envHang "user@mail.de" = .hangs :=
  pipeline_hangs_on_unresponsive_mx envHang "user@mail.de" "mail.de"
    "mx.example.com" [] (by decide) (by decide) rfl rfl rfl

/-- C10: the syntax checker places no label structure requirement on the
part after the first dot of the domain: any nonempty mix of letters,
digits, hyphens and dots is accepted there, and in particular the three
concrete addresses of the claim, with consecutive dots, a trailing dot,
and a hyphen-only trailing segment, are all accepted. -/
theorem syntax_trailing_part_permissive :
    (∀ a b c : List Char, a ≠ [] → a.all isLocalChar = true →
      b ≠ [] → b.all isMidChar = true → c ≠ [] → c.all isTailChar = true →
      is_valid_email (List.asString (a ++ '@' :: (b ++ '.' :: c))) = true) ∧
    is_valid_email "user@example..com" = true ∧
    is_valid_email "user@example.com." = true ∧
    is_valid_email "user@a.-" = true := by
  refine ⟨?_, by decide, by decide, by decide⟩
  intro a b c ha1 ha2 hb1 hb2 hc1 hc2
  have htl : (List.asString (a ++ '@' :: (b ++ '.' :: c))).toList =
      a ++ '@' :: (b ++ '.' :: c) := rfl
  have hpat : matchesPattern isLocalChar isMidChar isTailChar
      (a ++ '@' :: (b ++ '.' :: c)) = true :=
    (matchesPattern_iff isLocalChar isMidChar isTailChar _
      (by decide) (by decide)).mpr ⟨a, b, c, rfl, ha1, ha2, hb1, hb2, hc1, hc2⟩
  unfold is_valid_email pyDollarMatch
  rw [htl, hpat]
  rfl

/-- C10 witness: the general statement applied to concrete parts with a
hyphen-only trailing segment. -/
theorem syntax_trailing_part_permissive_witness :
    is_valid_email
      (List.asString (['u'] ++ '@' :: (['e'] ++ '.' :: ['-']))) = true :=
  syntax_trailing_part_permissive.1 ['u'] ['e'] ['-']
    (by decide) (by decide) (by decide) (by decide) (by decide) (by decide)
